import Mathlib

/-!
# Cutelyst `Authentication` plugin

A shallow embedding of `lib/Plugin/authentication.cpp`: the realm registry
(`addRealm`), realm resolution (`AuthenticationPrivate::realm`), the
request-scoped user slot, and the persist / restore protocol that runs over the
Session plugin.

Conventions of the embedding:

* `Cutelyst *c` is the record `Cutelyst`: the plugin property `"user"` of the
  Authentication plugin, the Session plugin installed on the context (if any),
  and a log of the calls made into the virtual `Store` / `Credential` objects.
* A function that writes through `c` returns the updated record.
* `Authentication::restoreUser` reads a local pointer that one of its branches
  never assigns; functions that reach it return `Except Fault _`, and the
  read of the unassigned pointer is `Fault.uninitialisedRealmPtr`.
* `Q_D(Authentication)` is the explicit argument `d : AuthenticationPrivate`;
  `c->plugin<Authentication*>()` and the back pointer `m_autehntication` both
  denote the manager that owns the realm, so they are the same `d`.
-/

/-! ## Qt value types -/

/-- QString: `null` is a default-constructed `QString()`; `str ""` is empty but not null. -/
inductive QString where
  | null
  | str (s : String)
deriving DecidableEq, Repr

namespace QString

/-- Embeds `QString::isNull()` -/
def isNull : QString → Bool
  | null => true
  | str _ => false

/-- The characters of the string; a null string has none. -/
def chars : QString → String
  | null => ""
  | str s => s

/-- Embeds `QString::isEmpty()` -/
def isEmpty (s : QString) : Bool := decide (s.chars = "")

/-- Embeds `operator==` on QString compares characters only, so a null string equals an empty one.
This is the comparison a `QMap` / `QHash` keyed by QString uses. -/
def sameAs (a b : QString) : Bool := decide (a.chars = b.chars)

end QString

/-- Embeds `CStringHash`: the string-to-string table carrying credentials / user info. -/
abbrev CStringHash := List (QString × QString)

/-- Embeds `CStringHash::insert`: replaces the value of an existing key, else adds the pair. -/
def CStringHash.insert (h : CStringHash) (key value : QString) : CStringHash :=
  (key, value) :: h.filter (fun e => !e.1.sameAs key)

namespace Authentication

/-- Embeds `Authentication::User`: the identity value; only `m_id` is touched by this file. -/
structure User where
  m_id : QString
deriving DecidableEq, Repr

end Authentication

/-- QVariant, restricted to the payloads this file can meet: the invalid variant `QVariant()`,
a QString, an `Authentication::User` (`qVariantFromValue(user)`), and `other`, a non-null value
of some foreign type that converts neither to QString nor to User. -/
inductive QVariant where
  | invalid
  | string (s : QString)
  | user (u : Authentication.User)
  | other (tag : Nat)
deriving DecidableEq, Repr

namespace QVariant

/-- Embeds `QVariant::isNull()`: true for the invalid variant and for a variant holding a null QString. -/
def isNull : QVariant → Bool
  | invalid => true
  | string s => s.isNull
  | user _ => false
  | other _ => false

/-- Embeds `QVariant::toString()`: the held QString, a null QString when there is no conversion. -/
def toString : QVariant → QString
  | string s => s
  | _ => QString.null

/-- Embeds `QVariant::value<User>()`: the held User, a default-constructed User otherwise. -/
def value_User : QVariant → Authentication.User
  | user u => u
  | _ => ⟨QString.null⟩

end QVariant

/-! ## Collaborators -/

/-- Modelled from the spec: the Session plugin (`session.h` is not among the sources). The spec
gives its contract as `isValid(request) → bool`, `value(request, key) → optional serialized
value`, `setValue(request, key, value)`: a key/value store scoped to one logical user session. -/
structure Session where
  valid : Bool
  data : String → QVariant

namespace Session

/-- Embeds `Session::isValid(c)` -/
def isValid (s : Session) : Bool := s.valid

/-- Embeds `Session::value(c, key)`: the invalid variant when the key was never set. -/
def value (s : Session) (key : String) : QVariant := s.data key

/-- Embeds `Session::setValue(c, key, value)` -/
def setValue (s : Session) (key : String) (v : QVariant) : Session :=
  { s with data := fun k => if k = key then v else s.data k }

end Session

/-- One call into a virtual `Store` or `Credential` method, as recorded in `Cutelyst.calls`.
The log is part of the context a collaborator is handed, so what a collaborator returns may
depend on the calls made before it. -/
inductive Call where
  | credentialAuthenticate (realm : QString) (authinfo : CStringHash)
  | storeFindUser (userinfo : CStringHash)
  | storeAutoCreateUser (userinfo : CStringHash)
  | storeAutoUpdateUser (userinfo : CStringHash)
  | storeForSession (user : Authentication.User)
deriving DecidableEq, Repr

/-- The request context `Cutelyst *c`, as far as this plugin reads and writes it. -/
structure Cutelyst where
  /-- Embeds `pluginProperty(c, "user")`; the invalid variant while the property is unset. -/
  user : QVariant
  /-- Embeds `c->plugin<Session*>()`; `none` when the Session plugin is not installed. -/
  session : Option Session
  /-- Calls made so far into Store / Credential objects, oldest first. -/
  calls : List Call

namespace Cutelyst

/-- Embeds `setPluginProperty(c, "user", value)` -/
def setPluginProperty_user (c : Cutelyst) (value : QVariant) : Cutelyst :=
  { c with user := value }

/-- Appends one collaborator call to the log. -/
def record (c : Cutelyst) (e : Call) : Cutelyst :=
  { c with calls := c.calls ++ [e] }

end Cutelyst

namespace Authentication

namespace User

/-- Embeds `User::User()` -/
def ctor : User := ⟨QString.null⟩

/-- Embeds `User::User(const QString &id)` -/
def ctorId (id : QString) : User := ⟨id⟩

/-- Embeds `User::id()` -/
def id (u : User) : QString := u.m_id

/-- Embeds `User::isNull()` -/
def isNull (u : User) : Bool := u.m_id.isNull

/-- Embeds `User::forSession(c)` -/
def forSession (_u : User) (_c : Cutelyst) : QVariant := QVariant.invalid

end User

/-- Embeds `Authentication::Store`: the virtual interface, one field per method. The base class
implements all but `findUser`; see `Store.base`. -/
structure Store where
  findUser : Cutelyst → CStringHash → User
  canAutoCreateUser : Bool
  autoCreateUser : Cutelyst → CStringHash → User
  canAutoUpdateUser : Bool
  autoUpdateUser : Cutelyst → CStringHash → User
  canForSession : Bool
  forSession : Cutelyst → User → QVariant

/-- A store that overrides only `findUser`; every other method is the base-class body. -/
def Store.base (findUser : Cutelyst → CStringHash → User) : Store where
  findUser := findUser
  canAutoCreateUser := false
  autoCreateUser := fun _ _ => User.ctor
  canAutoUpdateUser := false
  autoUpdateUser := fun _ _ => User.ctor
  canForSession := false
  forSession := fun _ _ => QVariant.invalid

/-- Embeds `Authentication::Credential`: `authenticate(c, realm, authinfo)`. The realm argument is
passed as the realm's store and name. -/
structure Credential where
  authenticate : Cutelyst → Store → QString → CStringHash → User

/-- Embeds `Authentication::Realm` -/
structure Realm where
  m_store : Store
  m_credential : Credential
  m_name : QString

/-- Embeds `Realm::Realm(store, credential)`: the name stays null until `addRealm` sets it. -/
def Realm.ctor (store : Store) (credential : Credential) : Realm :=
  ⟨store, credential, QString.null⟩

end Authentication

/-- The realm table `realms` of AuthenticationPrivate: a Qt associative container keyed by
QString, kept as its entries in insertion order. -/
structure RealmMap where
  entries : List (QString × Authentication.Realm)

namespace RealmMap

/-- The empty table. -/
def empty : RealmMap := ⟨[]⟩

/-- The keys of the table. -/
def keys (m : RealmMap) : List QString := m.entries.map Prod.fst

/-- Embeds `contains(key)` -/
def contains (m : RealmMap) (key : QString) : Bool := m.entries.any (fun e => e.1.sameAs key)

/-- Embeds `value(key)`: the realm stored under `key`, the null pointer (`none`) when there is none. -/
def value (m : RealmMap) (key : QString) : Option Authentication.Realm :=
  (m.entries.find? (fun e => e.1.sameAs key)).map Prod.snd

/-- Embeds `insert(key, value)`: replaces the value of an existing key, else adds the pair. -/
def insert (m : RealmMap) (key : QString) (v : Authentication.Realm) : RealmMap :=
  if m.contains key then
    ⟨m.entries.map (fun e => if e.1.sameAs key then (e.1, v) else e)⟩
  else
    ⟨m.entries ++ [(key, v)]⟩

end RealmMap

/-- Embeds `AuthenticationPrivate` (declared in `authentication_p.h`; its three members are the ones
`authentication.cpp` uses). -/
structure AuthenticationPrivate where
  defaultRealm : QString
  realms : RealmMap
  realmsOrder : List QString

namespace AuthenticationPrivate

/-- A freshly constructed `AuthenticationPrivate`. -/
def ctor : AuthenticationPrivate := ⟨QString.null, RealmMap.empty, []⟩

/-- Embeds `AuthenticationPrivate::realm(realmName)` -/
def realm (d : AuthenticationPrivate) (realmName : QString) : Option Authentication.Realm :=
  let name := if realmName.isNull then d.defaultRealm else realmName
  d.realms.value name

end AuthenticationPrivate

/-- Why a call did not run to a defined result. -/
inductive Fault where
  /-- Embeds `Authentication::restoreUser` tests `realmPtr` on a path that never assigned it. -/
  | uninitialisedRealmPtr
deriving DecidableEq, Repr

namespace Authentication

/-- Embeds `Authentication::addRealm(name, realm, defaultRealm)`. Each call is taken to register a
Realm object of its own, and the stored record is that object after `realm->m_name = name`. The
source keeps the pointer, so were one object registered again under a second name, that
assignment would show through the earlier key as well; the record kept here under the earlier
key does not follow it. The keys of the table, `realmsOrder` and `defaultRealm` do not depend
on this. -/
def addRealm (d : AuthenticationPrivate) (name : QString) (realm : Realm) (defaultRealm : Bool) :
    AuthenticationPrivate :=
  let d1 := if defaultRealm then { d with defaultRealm := name } else d
  { d1 with
    realms := d1.realms.insert name { realm with m_name := name }
    realmsOrder := d1.realmsOrder ++ [name] }

/-- Embeds `Authentication::addRealm(realm)`. The third argument of the call it forwards to is left to
its default, which is declared in the header; it is the parameter `defaultArg`. -/
def addRealm_default (defaultArg : Bool) (d : AuthenticationPrivate) (realm : Realm) :
    AuthenticationPrivate :=
  addRealm d (QString.str "default") realm defaultArg

namespace Realm

/-- Embeds `Realm::userIsRestorable(c)` -/
def userIsRestorable (_r : Realm) (c : Cutelyst) : User :=
  match c.session with
  | some session =>
    if session.isValid then (session.value "Authentication::user").value_User else User.ctor
  | none => User.ctor

/-- Embeds `Realm::findUser(c, userinfo)` -/
def findUser (r : Realm) (c : Cutelyst) (userinfo : CStringHash) : User × Cutelyst :=
  let ret := r.m_store.findUser c userinfo
  let c1 := c.record (Call.storeFindUser userinfo)
  if ret.isNull then
    if r.m_store.canAutoCreateUser then
      (r.m_store.autoCreateUser c1 userinfo, c1.record (Call.storeAutoCreateUser userinfo))
    else
      (ret, c1)
  else if r.m_store.canAutoUpdateUser then
    (r.m_store.autoUpdateUser c1 userinfo, c1.record (Call.storeAutoUpdateUser userinfo))
  else
    (ret, c1)

/-- Embeds `Realm::persistUser(c, user)` -/
def persistUser (r : Realm) (c : Cutelyst) (user : User) : User × Cutelyst :=
  match c.session with
  | some session =>
    if session.isValid then
      if r.m_store.canForSession then
        let value := r.m_store.forSession c user
        (user, { c.record (Call.storeForSession user) with
                 session := some (session.setValue "Authentication::user" value) })
      else
        let value := user.forSession c
        (user, { c with session := some (session.setValue "Authentication::user" value) })
    else (user, c)
  | none => (user, c)

/-- Embeds `Realm::restoreUser(c, frozenUser)` -/
def restoreUser (r : Realm) (c : Cutelyst) (frozenUser : User) : User :=
  let user := if frozenUser.isNull then r.userIsRestorable c else frozenUser
  match c.session with
  | some session =>
    if session.isValid then (session.value "Authentication::user").value_User else user
  | none => user

end Realm

/-- The `foreach` over `realmsOrder` in `findRealmForPersistedUser`. -/
def probeRealms (d : AuthenticationPrivate) (c : Cutelyst) : List QString → Option Realm
  | [] => none
  | realmName :: rest =>
    match d.realms.value realmName with
    | some realm =>
      if !(realm.userIsRestorable c).isNull then some realm else probeRealms d c rest
    | none => probeRealms d c rest

/-- Embeds `Authentication::findRealmForPersistedUser(c)`; `none` is the null pointer. -/
def findRealmForPersistedUser (d : AuthenticationPrivate) (c : Cutelyst) : Option Realm :=
  match c.session with
  | some session =>
    if session.isValid && !(session.value "Authentication::userRealm").isNull then
      let realmName := (session.value "Authentication::userRealm").toString
      match d.realms.value realmName with
      | some realm => if !(realm.userIsRestorable c).isNull then some realm else none
      | none => none
    else probeRealms d c d.realmsOrder
  | none => probeRealms d c d.realmsOrder

/-- Embeds `Authentication::restoreUser(c, frozenUser, realmName)`. With a non-null `realmName` the
only statement of the branch is commented out, so `if (realmPtr)` reads the pointer unassigned. -/
def restoreUser (d : AuthenticationPrivate) (c : Cutelyst) (frozenUser : User)
    (realmName : QString) : Except Fault User :=
  if !realmName.isNull then
    Except.error Fault.uninitialisedRealmPtr
  else
    match findRealmForPersistedUser d c with
    | some realmPtr => Except.ok (realmPtr.restoreUser c frozenUser)
    | none => Except.ok User.ctor

/-- Embeds `Authentication::user(c)` -/
def user (d : AuthenticationPrivate) (c : Cutelyst) : Except Fault User :=
  if c.user.isNull then restoreUser d c User.ctor QString.null
  else Except.ok c.user.value_User

/-- Embeds `Authentication::userExists(c)` -/
def userExists (d : AuthenticationPrivate) (c : Cutelyst) : Except Fault Bool :=
  match user d c with
  | Except.ok u => Except.ok (!u.isNull)
  | Except.error e => Except.error e

/-- Embeds `Authentication::userInRealm(c, realm)` -/
def userInRealm (d : AuthenticationPrivate) (c : Cutelyst) (realm : QString) :
    Except Fault Bool :=
  if c.user.isNull then
    match restoreUser d c User.ctor realm with
    | Except.ok u => Except.ok (!u.isNull)
    | Except.error e => Except.error e
  else Except.ok false

/-- Embeds `Authentication::logout(c)`: the body is empty. -/
def logout (_d : AuthenticationPrivate) (c : Cutelyst) : Cutelyst := c

/-- Embeds `Authentication::persistUser(c, user, realmName)` -/
def persistUser (d : AuthenticationPrivate) (c : Cutelyst) (user : User) (realmName : QString) :
    Except Fault Cutelyst :=
  match userExists d c with
  | Except.error e => Except.error e
  | Except.ok false => Except.ok c
  | Except.ok true =>
    let c1 : Cutelyst :=
      match c.session with
      | some session =>
        if session.isValid then
          let written := session.setValue "Authentication::userRealm" (QVariant.string realmName)
          { c with session := some written }
        else c
      | none => c
    match d.realm realmName with
    | some realmPtr => Except.ok (realmPtr.persistUser c1 user).2
    | none => Except.ok c1

/-- Embeds `Authentication::setAuthenticated(c, user, realmName)`; a name that resolves to no realm
only draws a warning. -/
def setAuthenticated (d : AuthenticationPrivate) (c : Cutelyst) (user : User)
    (realmName : QString) : Except Fault Cutelyst :=
  persistUser d (c.setPluginProperty_user (QVariant.user user)) user realmName

/-- Embeds `Realm::authenticate(c, authinfo)` -/
def Realm.authenticate (r : Realm) (d : AuthenticationPrivate) (c : Cutelyst)
    (authinfo : CStringHash) : Except Fault (User × Cutelyst) :=
  let user := r.m_credential.authenticate c r.m_store r.m_name authinfo
  let c1 := c.record (Call.credentialAuthenticate r.m_name authinfo)
  if !user.isNull then
    match setAuthenticated d c1 user r.m_name with
    | Except.ok c2 => Except.ok (user, c2)
    | Except.error e => Except.error e
  else Except.ok (user, c1)

/-- Embeds `Authentication::authenticate(c, userinfo, realm)` -/
def authenticate (d : AuthenticationPrivate) (c : Cutelyst) (userinfo : CStringHash)
    (realm : QString) : Except Fault (User × Cutelyst) :=
  match d.realm realm with
  | some realmPtr => realmPtr.authenticate d c userinfo
  | none => Except.ok (User.ctor, c)

/-- Embeds `Authentication::authenticate(c, username, password, realm)` -/
def authenticate_password (d : AuthenticationPrivate) (c : Cutelyst) (username password : QString)
    (realm : QString) : Except Fault (User × Cutelyst) :=
  let userinfo : CStringHash := []
  let userinfo := userinfo.insert (QString.str "username") username
  let userinfo := userinfo.insert (QString.str "password") password
  authenticate d c userinfo realm

/-- Embeds `Authentication::findUser(c, userinfo, realm)` -/
def findUser (d : AuthenticationPrivate) (c : Cutelyst) (userinfo : CStringHash)
    (realm : QString) : User × Cutelyst :=
  match d.realm realm with
  | some realmPtr => realmPtr.findUser c userinfo
  | none => (User.ctor, c)

end Authentication

/-! ## Read-only operations, with the context they leave behind

`Realm::userIsRestorable` and `Authentication::user` take `Cutelyst *c` but their bodies only
read through it (`plugin<Session*>()`, `isValid`, `value`, `pluginProperty`); neither calls
`setValue` or `setPluginProperty`. The state-passing forms below hand the context back as it
was received. -/

namespace Authentication

/-- The call `Realm::userIsRestorable(c)` in state-passing form: the User it returns and the
context after the call. -/
def Realm.userIsRestorable_run (r : Realm) (c : Cutelyst) : User × Cutelyst :=
  (r.userIsRestorable c, c)

/-- The call `Authentication::user(c)` in state-passing form: the User it returns and the
context after the call. The restored user is returned, not stored with `setPluginProperty`. -/
def user_run (d : AuthenticationPrivate) (c : Cutelyst) : Except Fault (User × Cutelyst) :=
  match user d c with
  | Except.ok u => Except.ok (u, c)
  | Except.error e => Except.error e

end Authentication

/-! ## Registries built by `addRealm` -/

/-- The arguments of one `addRealm(name, realm, defaultRealm)` call. -/
structure AddRealmCall where
  name : QString
  realm : Authentication.Realm
  defaultRealm : Bool

/-- The manager state after the given `addRealm` calls, made in order on a fresh manager. -/
def registry (calls : List AddRealmCall) : AuthenticationPrivate :=
  calls.foldl (fun d k => Authentication.addRealm d k.name k.realm k.defaultRealm)
    AuthenticationPrivate.ctor

/-- A fresh request: the user property unset, the given Session plugin state, an empty log. -/
def freshRequest (session : Option Session) : Cutelyst := ⟨QVariant.invalid, session, []⟩

/-- Every key of the realm table is listed in `realmsOrder`. -/
def Authentication.KeysListed (d : AuthenticationPrivate) : Prop :=
  ∀ k ∈ d.realms.keys, k ∈ d.realmsOrder

/-! ## Sample objects -/

namespace Sample

open Authentication

/-- The value stored under `key` in a `CStringHash`, null when absent. -/
def field (h : CStringHash) (key : String) : QString :=
  match h.find? (fun e => e.1.sameAs (QString.str key)) with
  | some e => e.2
  | none => QString.null

/-- A store that knows the single user "alice". -/
def aliceStore : Store :=
  Store.base (fun _ userinfo =>
    if field userinfo "username" = QString.str "alice" then User.ctorId (QString.str "alice")
    else User.ctor)

/-- A password credential: looks the user up in the realm's store and checks the password. -/
def secretCredential : Credential :=
  ⟨fun c store _ authinfo =>
    if field authinfo "password" = QString.str "secret" then store.findUser c authinfo
    else User.ctor⟩

/-- A realm over `aliceStore` and `secretCredential`, not yet registered. -/
def realm : Realm := Realm.ctor aliceStore secretCredential

/-- The user "alice". -/
def alice : User := User.ctorId (QString.str "alice")

/-- Realms "a" then "b", neither default. -/
def managerAB : AuthenticationPrivate :=
  registry [⟨QString.str "a", realm, false⟩, ⟨QString.str "b", realm, false⟩]

/-- One realm "default", registered as the default realm. -/
def managerDefault : AuthenticationPrivate :=
  registry [⟨QString.str "default", realm, true⟩]

/-- A valid session holding nothing. -/
def emptySession : Session := ⟨true, fun _ => QVariant.invalid⟩

/-- A valid session that holds alice as the persisted user and "b" as her realm. -/
def sessionB : Session :=
  (emptySession.setValue "Authentication::userRealm" (QVariant.string (QString.str "b"))).setValue
    "Authentication::user" (QVariant.user alice)

/-- A valid session that holds alice as the persisted user and no realm name. -/
def sessionNoHint : Session :=
  emptySession.setValue "Authentication::user" (QVariant.user alice)

/-- The credentials of scenario A. -/
def goodCredentials : CStringHash :=
  (CStringHash.insert [] (QString.str "username") (QString.str "alice")).insert
    (QString.str "password") (QString.str "secret")

/-- The credentials of scenario B. -/
def badCredentials : CStringHash :=
  (CStringHash.insert [] (QString.str "username") (QString.str "alice")).insert
    (QString.str "password") (QString.str "wrong")

/-- A request in which alice is authenticated, over a valid session that holds nothing. -/
def aliceRequest : Cutelyst :=
  (freshRequest (some emptySession)).setPluginProperty_user (QVariant.user alice)

/-- A store like `aliceStore` that also serializes a user for the session as the user itself. -/
def sessionStore : Store :=
  { aliceStore with canForSession := true, forSession := fun _ u => QVariant.user u }

/-- One realm "default" over `sessionStore`, registered as the default realm. -/
def managerSession : AuthenticationPrivate :=
  registry [⟨QString.str "default", Realm.ctor sessionStore secretCredential, true⟩]

/-- A store whose lookup always misses and that can auto-create: it creates the user "carol". -/
def creatingStore : Store :=
  { Store.base (fun _ _ => User.ctor) with
    canAutoCreateUser := true
    autoCreateUser := fun _ _ => User.ctorId (QString.str "carol") }

end Sample

/-! ## Lemmas on the realm table and the probe loop -/

namespace Authentication

theorem sameAs_comm (a b : QString) : a.sameAs b = b.sameAs a := by
  simp [QString.sameAs, eq_comm]

theorem sameAs_trans {a b c : QString} (h1 : a.sameAs b = true) (h2 : b.sameAs c = true) :
    a.sameAs c = true := by
  simp [QString.sameAs] at *
  rw [h1, h2]

/-- Looking a key up only depends on its characters. -/
theorem value_congr (m : RealmMap) {a b : QString} (h : a.sameAs b = true) :
    m.value a = m.value b := by
  have hc : a.chars = b.chars := by simpa [QString.sameAs] using h
  simp [RealmMap.value, QString.sameAs, hc]

/-- The probe loop returns `realm` exactly when `realm` is stored under the first name of the
list whose realm reports a restorable user. -/
theorem probeRealms_eq_some (d : AuthenticationPrivate) (c : Cutelyst) (realm : Realm) :
    ∀ order : List QString, probeRealms d c order = some realm ↔
      ∃ pre name post, order = pre ++ name :: post ∧ d.realms.value name = some realm ∧
        (realm.userIsRestorable c).isNull = false ∧
        ∀ n ∈ pre, ∀ r, d.realms.value n = some r → (r.userIsRestorable c).isNull = true := by
  intro order
  induction order with
  | nil => simp [probeRealms]
  | cons x rest ih =>
    constructor
    · intro h
      unfold probeRealms at h
      cases hx : d.realms.value x with
      | none =>
        rw [hx] at h
        obtain ⟨pre, name, post, h1, h2, h3, h4⟩ := ih.mp h
        refine ⟨x :: pre, name, post, by simp [h1], h2, h3, ?_⟩
        intro n hn r hr
        rcases List.mem_cons.mp hn with rfl | hn
        · rw [hx] at hr; cases hr
        · exact h4 n hn r hr
      | some r0 =>
        rw [hx] at h
        cases hn0 : (r0.userIsRestorable c).isNull with
        | false =>
          simp [hn0] at h
          subst h
          exact ⟨[], x, rest, rfl, hx, hn0, by simp⟩
        | true =>
          simp [hn0] at h
          obtain ⟨pre, name, post, h1, h2, h3, h4⟩ := ih.mp h
          refine ⟨x :: pre, name, post, by simp [h1], h2, h3, ?_⟩
          intro n hn r hr
          rcases List.mem_cons.mp hn with rfl | hn
          · rw [hx] at hr; cases hr; exact hn0
          · exact h4 n hn r hr
    · rintro ⟨pre, name, post, h1, h2, h3, h4⟩
      cases pre with
      | nil =>
        simp at h1
        obtain ⟨rfl, rfl⟩ := h1
        simp [probeRealms, h2, h3]
      | cons p pre =>
        simp at h1
        obtain ⟨rfl, rfl⟩ := h1
        have hrest : probeRealms d c (pre ++ name :: post) = some realm :=
          ih.mpr ⟨pre, name, post, rfl, h2, h3, fun n hn r hr => h4 n (by simp [hn]) r hr⟩
        unfold probeRealms
        cases hx : d.realms.value x with
        | none => simpa using hrest
        | some r0 =>
          have := h4 x (by simp) r0 hx
          simp [this, hrest]

/-- The probe loop returns the null pointer exactly when no name of the list resolves to a realm
that reports a restorable user. -/
theorem probeRealms_eq_none (d : AuthenticationPrivate) (c : Cutelyst) :
    ∀ order : List QString, probeRealms d c order = none ↔
      ∀ n ∈ order, ∀ r, d.realms.value n = some r → (r.userIsRestorable c).isNull = true := by
  intro order
  induction order with
  | nil => simp [probeRealms]
  | cons x rest ih =>
    unfold probeRealms
    cases hx : d.realms.value x with
    | none => simp [ih, hx]
    | some r0 =>
      cases hn0 : (r0.userIsRestorable c).isNull with
      | false => simp [hx, hn0]
      | true => simp [ih, hx, hn0]

/-- Without a usable realm name in the session, `findRealmForPersistedUser` is the probe loop. -/
theorem findRealmForPersistedUser_eq_probe (d : AuthenticationPrivate) (c : Cutelyst)
    (hno : ∀ session, c.session = some session → session.isValid = true →
      (session.value "Authentication::userRealm").isNull = true) :
    findRealmForPersistedUser d c = probeRealms d c d.realmsOrder := by
  unfold findRealmForPersistedUser
  cases hs : c.session with
  | none => rfl
  | some session =>
    cases hv : session.isValid with
    | false => simp [hv]
    | true => simp [hv, hno session hs hv]

end Authentication

/-! ## Lemmas on registries -/

namespace Authentication

theorem value_eq_some_iff (m : RealmMap) (n : QString) (r : Realm) :
    m.value n = some r → ∃ k ∈ m.keys, k.sameAs n = true ∧ m.value k = some r := by
  intro h
  unfold RealmMap.value at h
  cases hf : m.entries.find? (fun e => e.1.sameAs n) with
  | none => rw [hf] at h; cases h
  | some e =>
    rw [hf] at h
    have hr : e.2 = r := by simpa using h
    have hmem : e ∈ m.entries := List.mem_of_find?_eq_some hf
    have hsame : e.1.sameAs n = true := by simpa using List.find?_some hf
    refine ⟨e.1, List.mem_map_of_mem Prod.fst hmem, hsame, ?_⟩
    rw [value_congr m hsame]
    simp [RealmMap.value, hf, hr]

theorem keys_insert_subset (m : RealmMap) (name : QString) (v : Realm) :
    ∀ k ∈ (m.insert name v).keys, k ∈ m.keys ∨ k = name := by
  intro k hk
  unfold RealmMap.insert at hk
  split at hk
  · left
    simp only [RealmMap.keys, List.map_map, List.mem_map] at hk ⊢
    obtain ⟨e, he, hek⟩ := hk
    refine ⟨e, he, ?_⟩
    rw [← hek]
    simp only [Function.comp]
    split <;> rfl
  · simp only [RealmMap.keys, List.map_append, List.mem_append, List.mem_map] at hk ⊢
    rcases hk with hk | hk
    · exact Or.inl hk
    · right
      obtain ⟨e, he, hek⟩ := hk
      simp only [List.mem_singleton] at he
      rw [← hek, he]

theorem keysListed_addRealm (d : AuthenticationPrivate) (name : QString) (realm : Realm)
    (flag : Bool) (h : KeysListed d) : KeysListed (addRealm d name realm flag) := by
  intro k hk
  have hk2 : k ∈ (d.realms.insert name { realm with m_name := name }).keys := by
    cases flag <;> simpa [addRealm] using hk
  have ho : (addRealm d name realm flag).realmsOrder = d.realmsOrder ++ [name] := by
    cases flag <;> simp [addRealm]
  rw [ho]
  rcases keys_insert_subset _ _ _ k hk2 with h1 | h1
  · exact List.mem_append_left _ (h k h1)
  · simp [h1]

theorem keysListed_foldl (calls : List AddRealmCall) :
    ∀ d0, KeysListed d0 →
      KeysListed (calls.foldl (fun d k => addRealm d k.name k.realm k.defaultRealm) d0) := by
  induction calls with
  | nil => intro d0 h; simpa using h
  | cons k rest ih =>
    intro d0 h
    simp only [List.foldl_cons]
    exact ih _ (keysListed_addRealm d0 k.name k.realm k.defaultRealm h)

theorem keysListed_registry (calls : List AddRealmCall) : KeysListed (registry calls) :=
  keysListed_foldl calls _ (by intro k hk; simp [AuthenticationPrivate.ctor, RealmMap.empty, RealmMap.keys] at hk)

end Authentication

/-! ## Claims -/

namespace Authentication

/-- C1: when the session is present and valid, holds under "Authentication::userRealm" the name
of a registered realm, and that realm's `userIsRestorable` is non-null, then
`findRealmForPersistedUser` returns that realm, for every registry and every `realmsOrder`. -/
theorem findRealmForPersistedUser_session_hint (d : AuthenticationPrivate) (c : Cutelyst)
    (session : Session) (name : String) (realm : Realm)
    (hs : c.session = some session) (hv : session.isValid = true)
    (hk : session.value "Authentication::userRealm" = QVariant.string (QString.str name))
    (hr : d.realms.value (QString.str name) = some realm)
    (hu : (realm.userIsRestorable c).isNull = false) :
    findRealmForPersistedUser d c = some realm := by
  unfold findRealmForPersistedUser
  simp [hs, hv, hk, QVariant.isNull, QString.isNull, QVariant.toString, hr, hu]

/-- Scenario E: realm "a" registered before "b", the session names "b". -/
theorem findRealmForPersistedUser_session_hint_witness :
    (Sample.managerAB.realmsOrder = [QString.str "a", QString.str "b"] ∧
      (Sample.managerAB.realms.value (QString.str "b")).map Realm.m_name
        = some (QString.str "b")) ∧
    findRealmForPersistedUser Sample.managerAB (freshRequest (some Sample.sessionB))
      = some { Sample.realm with m_name := QString.str "b" } :=
  ⟨⟨rfl, rfl⟩,
   findRealmForPersistedUser_session_hint Sample.managerAB (freshRequest (some Sample.sessionB))
     Sample.sessionB "b" { Sample.realm with m_name := QString.str "b" } rfl rfl rfl rfl rfl⟩

/-- C2: on a registry built by `addRealm` calls, when the session carries no
"Authentication::userRealm" value (or there is no valid session), `findRealmForPersistedUser`
returns `realm` exactly when `realm` is registered under the first name of `realmsOrder` whose
realm has a non-null `userIsRestorable`, and returns none exactly when no registered realm has
a non-null `userIsRestorable`. -/
theorem findRealmForPersistedUser_no_hint (calls : List AddRealmCall) (c : Cutelyst)
    (hno : ∀ session, c.session = some session → session.isValid = true →
      (session.value "Authentication::userRealm").isNull = true) :
    (∀ realm, findRealmForPersistedUser (registry calls) c = some realm ↔
      ∃ pre name post, (registry calls).realmsOrder = pre ++ name :: post ∧
        (registry calls).realms.value name = some realm ∧
        (realm.userIsRestorable c).isNull = false ∧
        ∀ n ∈ pre, ∀ r, (registry calls).realms.value n = some r →
          (r.userIsRestorable c).isNull = true) ∧
    (findRealmForPersistedUser (registry calls) c = none ↔
      ∀ n r, (registry calls).realms.value n = some r →
        (r.userIsRestorable c).isNull = true) := by
  rw [findRealmForPersistedUser_eq_probe _ c hno]
  refine ⟨fun realm => probeRealms_eq_some _ c realm _, ?_⟩
  rw [probeRealms_eq_none]
  constructor
  · intro h n r hr
    obtain ⟨k, hk, _, hkr⟩ := value_eq_some_iff _ n r hr
    exact h k (keysListed_registry calls k hk) r hkr
  · intro h n _ r hr
    exact h n r hr

/-- Realms "a" then "b", a restorable user and no realm name in the session;
the probe returns "a", the first registered. -/
theorem findRealmForPersistedUser_no_hint_witness :
    (findRealmForPersistedUser Sample.managerAB (freshRequest (some Sample.sessionNoHint))).map
        Realm.m_name = some (QString.str "a") ∧
    (findRealmForPersistedUser Sample.managerAB (freshRequest (some Sample.sessionNoHint)) = none ↔
      ∀ n r, Sample.managerAB.realms.value n = some r →
        (r.userIsRestorable (freshRequest (some Sample.sessionNoHint))).isNull = true) :=
  ⟨rfl,
   (findRealmForPersistedUser_no_hint
     [⟨QString.str "a", Sample.realm, false⟩, ⟨QString.str "b", Sample.realm, false⟩]
     (freshRequest (some Sample.sessionNoHint))
     (by
       intro session hs _
       have h : session = Sample.sessionNoHint := by
         simpa [freshRequest] using hs.symm
       subst h
       rfl)).2⟩

theorem userRealm_ne_user : ("Authentication::userRealm" = "Authentication::user") = False := by
  simp

theorem user_ne_userRealm : ("Authentication::user" = "Authentication::userRealm") = False := by
  simp

theorem isNull_eq_of_id {u v : User} (h : u.m_id = v.m_id) : u.isNull = v.isNull := by
  simp [User.isNull, h]

/-- The round trip as stated fails: alice is authenticated in a request over a valid session and realm
"default" is registered; after `persistUser(alice, "default")`, `restoreUser` on a fresh request
sharing the session yields no User with alice's id. Given the realm name it reads the unassigned
`realmPtr`; given no realm name it returns a null User, because the base-class `forSession`
stored the invalid variant. -/
theorem persist_restore_roundtrip_counterexample :
    ∃ c1, persistUser Sample.managerDefault Sample.aliceRequest Sample.alice
        (QString.str "default") = Except.ok c1 ∧
      (¬ ∃ u, restoreUser Sample.managerDefault (freshRequest c1.session) User.ctor
          (QString.str "default") = Except.ok u ∧ u.id = Sample.alice.id) ∧
      restoreUser Sample.managerDefault (freshRequest c1.session) User.ctor
          (QString.str "default") = Except.error Fault.uninitialisedRealmPtr ∧
      restoreUser Sample.managerDefault (freshRequest c1.session) User.ctor QString.null
          = Except.ok User.ctor ∧
      User.ctor.id ≠ Sample.alice.id := by
  refine ⟨_, rfl, ?_, rfl, rfl, by decide⟩
  rintro ⟨u, hu, _⟩
  cases hu

/-- C3, amended: for a non-null user authenticated in a request over a valid session, and a
registered realm name whose Store reports `canForSession` and whose `forSession(user)` is a value
that converts back to a User with the same id, `persistUser(user, realmName)` followed by
`restoreUser(request', null User, no realm name)` on a fresh request sharing the session yields a
User whose id equals the original user's id. -/
theorem persist_restore_roundtrip (d : AuthenticationPrivate) (c : Cutelyst) (session : Session)
    (user : User) (n : String) (r : Realm)
    (hs : c.session = some session) (hv : session.isValid = true)
    (hu : user.isNull = false) (hslot : c.user = QVariant.user user)
    (hr : d.realms.value (QString.str n) = some r)
    (hcan : r.m_store.canForSession = true)
    (hfor : ∀ c0, ((r.m_store.forSession c0 user).value_User).id = user.id) :
    ∃ c1 u, persistUser d c user (QString.str n) = Except.ok c1 ∧
      restoreUser d (freshRequest c1.session) User.ctor QString.null = Except.ok u ∧
      u.id = user.id := by
  have hex : userExists d c = Except.ok true := by
    simp [userExists, Authentication.user, hslot, QVariant.isNull, QVariant.value_User, hu]
  have hrealm : d.realm (QString.str n) = some r := by
    simp [AuthenticationPrivate.realm, QString.isNull, hr]
  have hnn : ∀ c0, ((r.m_store.forSession c0 user).value_User).isNull = false := by
    intro c0
    rw [isNull_eq_of_id (hfor c0)]
    exact hu
  have hv2 : session.valid = true := hv
  have hp : persistUser d c user (QString.str n) = Except.ok
      (r.persistUser { c with session := some (session.setValue "Authentication::userRealm"
        (QVariant.string (QString.str n))) } user).2 := by
    simp [persistUser, hex, hs, hv, hrealm]
  have hsess : (r.persistUser { c with session := some (session.setValue
        "Authentication::userRealm" (QVariant.string (QString.str n))) } user).2.session =
      some ((session.setValue "Authentication::userRealm"
        (QVariant.string (QString.str n))).setValue "Authentication::user"
        (r.m_store.forSession { c with session := some (session.setValue
          "Authentication::userRealm" (QVariant.string (QString.str n))) } user)) := by
    simp [Realm.persistUser, Session.isValid, Session.setValue, hcan, hv2, Cutelyst.record]
  refine ⟨_, _, hp, ?_, hfor { c with session := some (session.setValue
    "Authentication::userRealm" (QVariant.string (QString.str n))) }⟩
  rw [hsess]
  simp [restoreUser, QString.isNull, findRealmForPersistedUser, freshRequest, Session.isValid,
    Session.setValue, Session.value, hv2, QVariant.isNull, QVariant.toString, hr,
    Realm.userIsRestorable, Realm.restoreUser, hnn, User.ctor]

/-- The round trip over realm "default" with a store that serializes the user. -/
theorem persist_restore_roundtrip_witness :
    ∃ c1 u, persistUser Sample.managerSession Sample.aliceRequest Sample.alice
        (QString.str "default") = Except.ok c1 ∧
      restoreUser Sample.managerSession (freshRequest c1.session) User.ctor QString.null
        = Except.ok u ∧
      u.id = Sample.alice.id :=
  persist_restore_roundtrip Sample.managerSession Sample.aliceRequest Sample.emptySession
    Sample.alice "default"
    { Realm.ctor Sample.sessionStore Sample.secretCredential with m_name := QString.str "default" }
    rfl rfl rfl rfl rfl rfl (fun _ => rfl)

/-- With a user stored in the slot, `userExists` is the negation of that user's `isNull`. -/
theorem userExists_of_slot (d : AuthenticationPrivate) (c : Cutelyst) (u : User)
    (h : c.user = QVariant.user u) : userExists d c = Except.ok (!u.isNull) := by
  simp [userExists, Authentication.user, h, QVariant.isNull, QVariant.value_User]

/-- Once `userExists` holds, `persistUser` runs to a defined result that keeps the slot. -/
theorem persistUser_of_exists (d : AuthenticationPrivate) (c : Cutelyst) (u : User)
    (realmName : QString) (h : userExists d c = Except.ok true) :
    ∃ c1, persistUser d c u realmName = Except.ok c1 ∧ c1.user = c.user := by
  unfold persistUser
  rw [h]
  cases hs : c.session with
  | none =>
    cases hr : d.realm realmName with
    | none => exact ⟨_, rfl, rfl⟩
    | some r => exact ⟨_, rfl, by simp [Realm.persistUser, hs]⟩
  | some session =>
    cases hv : session.valid with
    | false =>
      cases hr : d.realm realmName with
      | none => exact ⟨_, rfl, by simp [Session.isValid, hv]⟩
      | some r => exact ⟨_, rfl, by simp [Realm.persistUser, hs, Session.isValid, hv]⟩
    | true =>
      cases hr : d.realm realmName with
      | none => exact ⟨_, rfl, by simp [Session.isValid, hv]⟩
      | some r =>
        refine ⟨_, rfl, ?_⟩
        cases hcan : r.m_store.canForSession <;>
          simp [Realm.persistUser, Session.isValid, Session.setValue, hv, hcan, Cutelyst.record]

/-- Without a restorable identity in the session, no realm is found for a persisted user. -/
theorem findRealmForPersistedUser_none_of_not_restorable (d : AuthenticationPrivate)
    (c : Cutelyst)
    (h : ∀ session, c.session = some session → session.isValid = true →
      ((session.value "Authentication::user").value_User).isNull = true) :
    findRealmForPersistedUser d c = none := by
  have hnull : ∀ r : Realm, (r.userIsRestorable c).isNull = true := by
    intro r
    unfold Realm.userIsRestorable
    cases hs : c.session with
    | none => rfl
    | some session =>
      cases hv : session.isValid with
      | false => simp [hv, User.ctor, User.isNull, QString.isNull]
      | true => simpa [hv] using h session hs hv
  have hprobe : probeRealms d c d.realmsOrder = none :=
    (probeRealms_eq_none d c d.realmsOrder).mpr (fun _ _ r _ => hnull r)
  unfold findRealmForPersistedUser
  cases hs : c.session with
  | none => simpa using hprobe
  | some session =>
    simp only []
    split
    · cases hr : d.realms.value (session.value "Authentication::userRealm").toString with
      | none => rfl
      | some r => simp [hnull r]
    · exact hprobe

/-- With a Store that does not report `canForSession`, what `persistUser` leaves under
"Authentication::user" is the invalid variant of `User::forSession`, and `restoreUser` with no
realm name on a fresh request sharing the session returns a null User. -/
theorem persist_restore_base_forSession (d : AuthenticationPrivate) (c : Cutelyst)
    (session : Session) (user : User) (n : String) (r : Realm)
    (hs : c.session = some session) (hv : session.isValid = true)
    (hu : user.isNull = false) (hslot : c.user = QVariant.user user)
    (hr : d.realms.value (QString.str n) = some r)
    (hcan : r.m_store.canForSession = false) :
    ∃ c1, persistUser d c user (QString.str n) = Except.ok c1 ∧
      restoreUser d (freshRequest c1.session) User.ctor QString.null = Except.ok User.ctor := by
  have hex : userExists d c = Except.ok true := by
    simp [userExists, Authentication.user, hslot, QVariant.isNull, QVariant.value_User, hu]
  have hrealm : d.realm (QString.str n) = some r := by
    simp [AuthenticationPrivate.realm, QString.isNull, hr]
  have hv2 : session.valid = true := hv
  have hp : persistUser d c user (QString.str n) = Except.ok
      (r.persistUser { c with session := some (session.setValue "Authentication::userRealm"
        (QVariant.string (QString.str n))) } user).2 := by
    simp [persistUser, hex, hs, hv, hrealm]
  have hsess : (r.persistUser { c with session := some (session.setValue
        "Authentication::userRealm" (QVariant.string (QString.str n))) } user).2.session =
      some ((session.setValue "Authentication::userRealm"
        (QVariant.string (QString.str n))).setValue "Authentication::user"
        QVariant.invalid) := by
    simp [Realm.persistUser, Session.isValid, Session.setValue, hcan, hv2, User.forSession]
  refine ⟨_, hp, ?_⟩
  rw [hsess]
  have hfind := findRealmForPersistedUser_none_of_not_restorable d
    (freshRequest (some ((session.setValue "Authentication::userRealm"
        (QVariant.string (QString.str n))).setValue "Authentication::user" QVariant.invalid)))
    (by
      intro s2 hs2 _
      have h : s2 = (session.setValue "Authentication::userRealm"
          (QVariant.string (QString.str n))).setValue "Authentication::user"
          QVariant.invalid := by
        simpa [freshRequest] using hs2.symm
      subst h
      simp [Session.value, Session.setValue, QVariant.value_User, User.isNull, QString.isNull])
  simp [restoreUser, QString.isNull, hfind]

/-- C4: with realm "default" registered and set as the default realm, and credentials for which
that realm's Credential returns a non-null User `u`, `authenticate(req, credentials, no realm
name)` returns `u` and leaves `u` in the request slot, so that `user(req)` afterwards returns a
User with the same id, with or without a session. -/
theorem authenticate_default_realm (d : AuthenticationPrivate) (c : Cutelyst)
    (credentials : CStringHash) (r : Realm) (u : User)
    (hd : d.defaultRealm = QString.str "default")
    (hr : d.realms.value (QString.str "default") = some r)
    (hc : r.m_credential.authenticate c r.m_store r.m_name credentials = u)
    (hu : u.isNull = false) :
    ∃ c1 u1, authenticate d c credentials QString.null = Except.ok (u, c1) ∧
      user d c1 = Except.ok u1 ∧ u1.id = u.id := by
  have hrealm : d.realm QString.null = some r := by
    simp [AuthenticationPrivate.realm, QString.isNull, hd, hr]
  have hex : userExists d ((c.record (Call.credentialAuthenticate r.m_name
      credentials)).setPluginProperty_user (QVariant.user u)) = Except.ok true := by
    rw [userExists_of_slot d _ u rfl, hu]
    rfl
  obtain ⟨c1, hp, hslot⟩ := persistUser_of_exists d _ u r.m_name hex
  refine ⟨c1, u, ?_, ?_, rfl⟩
  · simp [authenticate, hrealm, Realm.authenticate, hc, hu, setAuthenticated, hp]
  · have hs : c1.user = QVariant.user u := by
      rw [hslot]
      rfl
    simp [Authentication.user, hs, QVariant.isNull, QVariant.value_User]

/-- Scenario A: the right password, realm "default" as the default realm. -/
theorem authenticate_default_realm_witness :
    ∃ c1 u1, authenticate Sample.managerDefault (freshRequest (some Sample.emptySession))
        Sample.goodCredentials QString.null = Except.ok (Sample.alice, c1) ∧
      user Sample.managerDefault c1 = Except.ok u1 ∧ u1.id = Sample.alice.id :=
  authenticate_default_realm Sample.managerDefault (freshRequest (some Sample.emptySession))
    Sample.goodCredentials { Sample.realm with m_name := QString.str "default" } Sample.alice
    rfl rfl rfl rfl

/-- C5: when the realm name does not resolve (an explicit name under which no realm is
registered, or no name while the default name names no registered realm), `authenticate` returns
a null User and hands back the context as it was: the request slot, the session and the log of
Credential / Store calls are unchanged. -/
theorem authenticate_unresolved_realm (d : AuthenticationPrivate) (c : Cutelyst)
    (userinfo : CStringHash) (realm : QString)
    (h : (realm.isNull = false ∧ d.realms.value realm = none) ∨
      (realm.isNull = true ∧ d.realms.value d.defaultRealm = none)) :
    authenticate d c userinfo realm = Except.ok (User.ctor, c) ∧ User.ctor.isNull = true := by
  have hrealm : d.realm realm = none := by
    rcases h with ⟨h1, h2⟩ | ⟨h1, h2⟩ <;> simp [AuthenticationPrivate.realm, h1, h2]
  simp [authenticate, hrealm, User.ctor, User.isNull, QString.isNull]

/-- Scenario C: realms "a" and "b", no default, no realm name given. -/
theorem authenticate_unresolved_realm_witness :
    Sample.managerAB.defaultRealm = QString.null ∧
    authenticate Sample.managerAB (freshRequest (some Sample.emptySession))
      Sample.goodCredentials QString.null
      = Except.ok (User.ctor, freshRequest (some Sample.emptySession)) ∧
    User.ctor.isNull = true :=
  ⟨rfl, authenticate_unresolved_realm Sample.managerAB (freshRequest (some Sample.emptySession))
    Sample.goodCredentials QString.null (Or.inr ⟨rfl, rfl⟩)⟩

/-- C6: when the realm resolves and its Credential returns a null User, `authenticate` returns a
null User and changes neither the request slot nor the session (the log gains the Credential
call); if moreover the slot is empty and the session holds no restorable identity,
`userExists(req)` is false afterwards. -/
theorem authenticate_rejected (d : AuthenticationPrivate) (c : Cutelyst)
    (authinfo : CStringHash) (realm : QString) (r : Realm)
    (hr : d.realm realm = some r)
    (hc : (r.m_credential.authenticate c r.m_store r.m_name authinfo).isNull = true) :
    ∃ u c1, authenticate d c authinfo realm = Except.ok (u, c1) ∧ u.isNull = true ∧
      c1.user = c.user ∧ c1.session = c.session ∧
      c1.calls = c.calls ++ [Call.credentialAuthenticate r.m_name authinfo] ∧
      (c.user.isNull = true →
        (∀ session, c.session = some session → session.isValid = true →
          ((session.value "Authentication::user").value_User).isNull = true) →
        userExists d c1 = Except.ok false) := by
  refine ⟨_, c.record (Call.credentialAuthenticate r.m_name authinfo), ?_, hc, rfl, rfl, rfl, ?_⟩
  · simp [authenticate, hr, Realm.authenticate, hc]
  · intro hslot hsess
    have hfind := findRealmForPersistedUser_none_of_not_restorable d
      (c.record (Call.credentialAuthenticate r.m_name authinfo)) hsess
    have hslot2 : (c.record (Call.credentialAuthenticate r.m_name authinfo)).user.isNull
        = true := hslot
    simp [userExists, Authentication.user, hslot2, restoreUser, QString.isNull, hfind, User.ctor,
      User.isNull]

/-- Scenario B: the wrong password on a fresh request. -/
theorem authenticate_rejected_witness :
    ∃ u c1, authenticate Sample.managerDefault (freshRequest (some Sample.emptySession))
        Sample.badCredentials QString.null = Except.ok (u, c1) ∧ u.isNull = true ∧
      userExists Sample.managerDefault c1 = Except.ok false := by
  obtain ⟨u, c1, h1, h2, _, _, _, h6⟩ :=
    authenticate_rejected Sample.managerDefault (freshRequest (some Sample.emptySession))
      Sample.badCredentials QString.null { Sample.realm with m_name := QString.str "default" }
      rfl rfl
  refine ⟨u, c1, h1, h2, h6 rfl ?_⟩
  intro session hs _
  have h : session = Sample.emptySession := by
    simpa [freshRequest] using hs.symm
  subst h
  rfl

/-- C7: `Realm::findUser` returns the Store's `autoCreateUser` result when the lookup misses and
`canAutoCreateUser` is true; a null User when it misses and `canAutoCreateUser` is false; the
Store's `autoUpdateUser` result when it hits and `canAutoUpdateUser` is true; the looked-up
record itself when it hits and `canAutoUpdateUser` is false. The calls it adds to the log are
the lookup followed by at most that one auto call, so `autoCreateUser` is not called on a hit
and `autoUpdateUser` is not called on a miss. -/
theorem Realm_findUser_cases (r : Realm) (c : Cutelyst) (userinfo : CStringHash) :
    ((r.m_store.findUser c userinfo).isNull = true → r.m_store.canAutoCreateUser = true →
      (r.findUser c userinfo).1
          = r.m_store.autoCreateUser (c.record (Call.storeFindUser userinfo)) userinfo ∧
        (r.findUser c userinfo).2.calls
          = c.calls ++ [Call.storeFindUser userinfo, Call.storeAutoCreateUser userinfo]) ∧
    ((r.m_store.findUser c userinfo).isNull = true → r.m_store.canAutoCreateUser = false →
      (r.findUser c userinfo).1.isNull = true ∧
        (r.findUser c userinfo).2.calls = c.calls ++ [Call.storeFindUser userinfo]) ∧
    ((r.m_store.findUser c userinfo).isNull = false → r.m_store.canAutoUpdateUser = true →
      (r.findUser c userinfo).1
          = r.m_store.autoUpdateUser (c.record (Call.storeFindUser userinfo)) userinfo ∧
        (r.findUser c userinfo).2.calls
          = c.calls ++ [Call.storeFindUser userinfo, Call.storeAutoUpdateUser userinfo]) ∧
    ((r.m_store.findUser c userinfo).isNull = false → r.m_store.canAutoUpdateUser = false →
      (r.findUser c userinfo).1 = r.m_store.findUser c userinfo ∧
        (r.findUser c userinfo).2.calls = c.calls ++ [Call.storeFindUser userinfo]) ∧
    (r.findUser c userinfo).2.user = c.user ∧ (r.findUser c userinfo).2.session = c.session := by
  refine ⟨?_, ?_, ?_, ?_, ?_, ?_⟩
  · intro h1 h2
    simp [Realm.findUser, h1, h2, Cutelyst.record]
  · intro h1 h2
    simp [Realm.findUser, h1, h2, Cutelyst.record]
  · intro h1 h2
    simp [Realm.findUser, h1, h2, Cutelyst.record]
  · intro h1 h2
    simp [Realm.findUser, h1, h2, Cutelyst.record]
  · unfold Realm.findUser
    simp only []
    split_ifs <;> rfl
  · unfold Realm.findUser
    simp only []
    split_ifs <;> rfl

/-- Scenario D: the lookup misses, the store auto-creates "carol". -/
theorem Realm_findUser_cases_witness :
    ((Realm.ctor Sample.creatingStore Sample.secretCredential).findUser
        (freshRequest none) Sample.goodCredentials).1 = User.ctorId (QString.str "carol") ∧
    ((Realm.ctor Sample.creatingStore Sample.secretCredential).findUser
        (freshRequest none) Sample.goodCredentials).2.calls
      = [Call.storeFindUser Sample.goodCredentials,
         Call.storeAutoCreateUser Sample.goodCredentials] :=
  (Realm_findUser_cases (Realm.ctor Sample.creatingStore Sample.secretCredential)
    (freshRequest none) Sample.goodCredentials).1 rfl rfl

/-- The no-op property as stated fails: on a fresh request (empty slot) whose session holds alice as a
restorable identity under realm "b", `persistUser(alice, "a")` rewrites both session keys:
`userExists` restores alice from the session, so the guard passes. -/
theorem persistUser_empty_slot_counterexample :
    (freshRequest (some Sample.sessionB)).user = QVariant.invalid ∧
    Sample.sessionB.value "Authentication::userRealm" = QVariant.string (QString.str "b") ∧
    Sample.sessionB.value "Authentication::user" = QVariant.user Sample.alice ∧
    ∃ c1 s1, persistUser Sample.managerAB (freshRequest (some Sample.sessionB)) Sample.alice
        (QString.str "a") = Except.ok c1 ∧ c1.session = some s1 ∧
      s1.value "Authentication::userRealm" = QVariant.string (QString.str "a") ∧
      s1.value "Authentication::user" = QVariant.invalid :=
  ⟨rfl, rfl, rfl, _, _, rfl, rfl, rfl, rfl⟩

/-- C8, amended: for every state in which the request slot is empty and either the session
holds no restorable identity (no valid session, or no non-null User under
"Authentication::user") or `findRealmForPersistedUser` finds no realm, `userExists(req)` is
false and `persistUser` returns the context as it was, so neither session key changes. -/
theorem persistUser_noop (d : AuthenticationPrivate) (c : Cutelyst) (user : User)
    (realmName : QString)
    (hslot : c.user.isNull = true)
    (hsess : (∀ session, c.session = some session → session.isValid = true →
        ((session.value "Authentication::user").value_User).isNull = true) ∨
      findRealmForPersistedUser d c = none) :
    userExists d c = Except.ok false ∧ persistUser d c user realmName = Except.ok c := by
  have hfind : findRealmForPersistedUser d c = none := by
    rcases hsess with h | h
    · exact findRealmForPersistedUser_none_of_not_restorable d c h
    · exact h
  have hex : userExists d c = Except.ok false := by
    simp [userExists, Authentication.user, hslot, restoreUser, QString.isNull, hfind, User.ctor,
      User.isNull]
  exact ⟨hex, by simp [persistUser, hex]⟩

/-- The no-op on a fresh request over a valid session that holds nothing. -/
theorem persistUser_noop_witness :
    userExists Sample.managerAB (freshRequest (some Sample.emptySession)) = Except.ok false ∧
    persistUser Sample.managerAB (freshRequest (some Sample.emptySession)) Sample.alice
      (QString.str "a") = Except.ok (freshRequest (some Sample.emptySession)) :=
  persistUser_noop Sample.managerAB (freshRequest (some Sample.emptySession)) Sample.alice
    (QString.str "a") rfl
    (Or.inl (by
      intro session hs _
      have h : session = Sample.emptySession := by
        simpa [freshRequest] using hs.symm
      subst h
      rfl))

/-- C9: for a non-null user, a registered realm name and a present, valid session,
`setAuthenticated(user, realmName)` ends with the user in the request slot, with
"Authentication::userRealm" equal to `realmName`, with "Authentication::user" equal to the
Store's `forSession(user)` when the realm's Store reports `canForSession` and to the User's own
`forSession` otherwise, and with every other session key as before. -/
theorem setAuthenticated_effect (d : AuthenticationPrivate) (c : Cutelyst) (session : Session)
    (user : User) (n : String) (r : Realm)
    (hs : c.session = some session) (hv : session.isValid = true)
    (hu : user.isNull = false)
    (hr : d.realms.value (QString.str n) = some r) :
    ∃ c1 s1, setAuthenticated d c user (QString.str n) = Except.ok c1 ∧
      c1.user = QVariant.user user ∧
      c1.session = some s1 ∧ s1.isValid = true ∧
      s1.value "Authentication::userRealm" = QVariant.string (QString.str n) ∧
      s1.value "Authentication::user" =
        (if r.m_store.canForSession then
          r.m_store.forSession ⟨QVariant.user user, some (session.setValue
            "Authentication::userRealm" (QVariant.string (QString.str n))), c.calls⟩ user
         else
          user.forSession ⟨QVariant.user user, some (session.setValue
            "Authentication::userRealm" (QVariant.string (QString.str n))), c.calls⟩) ∧
      ∀ key, key ≠ "Authentication::userRealm" → key ≠ "Authentication::user" →
        s1.value key = session.value key := by
  have hv2 : session.valid = true := hv
  have hex : userExists d (c.setPluginProperty_user (QVariant.user user)) = Except.ok true := by
    rw [userExists_of_slot d _ user rfl, hu]
    rfl
  have hrealm : d.realm (QString.str n) = some r := by
    simp [AuthenticationPrivate.realm, QString.isNull, hr]
  have hs2 : (c.setPluginProperty_user (QVariant.user user)).session = some session := hs
  have hp : setAuthenticated d c user (QString.str n) = Except.ok
      (r.persistUser ⟨QVariant.user user, some (session.setValue "Authentication::userRealm"
        (QVariant.string (QString.str n))), c.calls⟩ user).2 := by
    simp [setAuthenticated, persistUser, hex, hs2, hv, hrealm]
    rfl
  have hslot : (r.persistUser ⟨QVariant.user user, some (session.setValue
      "Authentication::userRealm" (QVariant.string (QString.str n))), c.calls⟩ user).2.user
      = QVariant.user user := by
    cases hcan : r.m_store.canForSession <;>
      simp [Realm.persistUser, Session.isValid, Session.setValue, hv2, hcan, Cutelyst.record]
  have hsess : (r.persistUser ⟨QVariant.user user, some (session.setValue
      "Authentication::userRealm" (QVariant.string (QString.str n))), c.calls⟩ user).2.session
      = some ((session.setValue "Authentication::userRealm"
          (QVariant.string (QString.str n))).setValue "Authentication::user"
        (if r.m_store.canForSession then
          r.m_store.forSession ⟨QVariant.user user, some (session.setValue
            "Authentication::userRealm" (QVariant.string (QString.str n))), c.calls⟩ user
         else
          user.forSession ⟨QVariant.user user, some (session.setValue
            "Authentication::userRealm" (QVariant.string (QString.str n))), c.calls⟩)) := by
    cases hcan : r.m_store.canForSession <;>
      simp [Realm.persistUser, Session.isValid, Session.setValue, hv2, hcan, Cutelyst.record]
  refine ⟨_, _, hp, hslot, hsess, ?_, ?_, ?_, ?_⟩
  · simp [Session.isValid, Session.setValue, hv2]
  · simp [Session.value, Session.setValue]
  · simp [Session.value, Session.setValue]
  · intro key h1 h2
    simp [Session.value, Session.setValue, h1, h2]

/-- Alice is marked authenticated under realm "default" on a fresh request
over a valid session that holds nothing. -/
theorem setAuthenticated_effect_witness :
    ∃ c1 s1, setAuthenticated Sample.managerDefault (freshRequest (some Sample.emptySession))
        Sample.alice (QString.str "default") = Except.ok c1 ∧
      c1.user = QVariant.user Sample.alice ∧ c1.session = some s1 ∧
      s1.value "Authentication::userRealm" = QVariant.string (QString.str "default") ∧
      s1.value "Authentication::user" = QVariant.invalid := by
  obtain ⟨c1, s1, h1, h2, h3, _, h5, h6, _⟩ :=
    setAuthenticated_effect Sample.managerDefault (freshRequest (some Sample.emptySession))
      Sample.emptySession Sample.alice "default"
      { Sample.realm with m_name := QString.str "default" } rfl rfl rfl rfl
  exact ⟨c1, s1, h1, h2, h3, h5, h6⟩

theorem contains_insert (m : RealmMap) (name key : QString) (v : Realm) :
    (m.insert name v).contains key = (m.contains key || name.sameAs key) := by
  unfold RealmMap.insert
  split
  · rename_i hc
    simp only [RealmMap.contains, List.any_map]
    have hfun : ((fun e : QString × Realm => e.1.sameAs key) ∘
        fun e => if e.1.sameAs name = true then (e.1, v) else e)
        = fun e => e.1.sameAs key := by
      funext e
      simp only [Function.comp]
      split <;> rfl
    rw [hfun]
    cases hn : name.sameAs key with
    | false => simp
    | true =>
      simp only [Bool.or_true]
      simp only [RealmMap.contains, List.any_eq_true] at hc ⊢
      obtain ⟨e, he, hen⟩ := hc
      exact ⟨e, he, sameAs_trans hen hn⟩
  · simp [RealmMap.contains, List.any_append]

end Authentication

namespace Authentication

/-- The default name is unset, or it is a key of the realm table. -/
theorem defaultRealm_foldl (calls : List AddRealmCall) :
    ∀ d0, (d0.defaultRealm = QString.null ∨ d0.realms.contains d0.defaultRealm = true) →
      ((calls.foldl (fun d k => addRealm d k.name k.realm k.defaultRealm) d0).defaultRealm
          = QString.null ∨
        (calls.foldl (fun d k => addRealm d k.name k.realm k.defaultRealm) d0).realms.contains
          (calls.foldl (fun d k => addRealm d k.name k.realm k.defaultRealm) d0).defaultRealm
          = true) := by
  induction calls with
  | nil => intro d0 h; simpa using h
  | cons k rest ih =>
    intro d0 h
    simp only [List.foldl_cons]
    apply ih
    cases hflag : k.defaultRealm with
    | false =>
      rcases h with h | h
      · left
        simpa [addRealm] using h
      · right
        simp only [addRealm, Bool.false_eq_true, if_false]
        rw [contains_insert, h]
        rfl
    | true =>
      right
      simp only [addRealm, if_true]
      rw [contains_insert]
      simp [QString.sameAs]

/-- A key that compares equal to a non-empty name is that name. -/
theorem eq_of_sameAs_of_nonempty {a b : QString} (h : a.sameAs b = true)
    (hb : b.isEmpty = false) : a = b := by
  cases b with
  | null => simp [QString.isEmpty, QString.chars] at hb
  | str t =>
    cases a with
    | null =>
      simp [QString.sameAs, QString.chars] at h
      simp [QString.isEmpty, QString.chars, ← h] at hb
    | str s =>
      simp [QString.sameAs, QString.chars] at h
      rw [h]

/-- C11: in every manager state reached from the empty registry by `addRealm` calls, with any
`defaultRealm` flags, the default realm name is either empty or a key present in the realm
table (and then resolves to a realm). -/
theorem defaultRealm_invariant (calls : List AddRealmCall) :
    (registry calls).defaultRealm.isEmpty = true ∨
      ((registry calls).defaultRealm ∈ (registry calls).realms.keys ∧
        ((registry calls).realms.value (registry calls).defaultRealm).isSome = true) := by
  cases hemp : (registry calls).defaultRealm.isEmpty with
  | true => exact Or.inl rfl
  | false =>
    right
    have hinv := defaultRealm_foldl calls AuthenticationPrivate.ctor (Or.inl rfl)
    have hcont : (registry calls).realms.contains (registry calls).defaultRealm = true := by
      rcases hinv with h | h
      · have h2 : (registry calls).defaultRealm = QString.null := h
        rw [h2] at hemp
        simp [QString.isEmpty, QString.chars] at hemp
      · exact h
    simp only [RealmMap.contains, List.any_eq_true] at hcont
    obtain ⟨e, he, hsame⟩ := hcont
    constructor
    · have heq := eq_of_sameAs_of_nonempty hsame hemp
      rw [← heq]
      exact List.mem_map_of_mem Prod.fst he
    · unfold RealmMap.value
      cases hf : List.find? (fun e => e.1.sameAs (registry calls).defaultRealm)
          (registry calls).realms.entries with
      | some x => rfl
      | none =>
        have := List.find?_eq_none.mp hf e he
        simp [hsame] at this

end Authentication

namespace Authentication

/-- C12 at its failing input: alice is marked authenticated under realm "default" and `logout`
is called; the body of `logout` is empty, so the request slot still holds alice and `user(req)`
still returns her. -/
theorem logout_keeps_slot :
    ∃ c1, setAuthenticated Sample.managerDefault (freshRequest (some Sample.emptySession))
        Sample.alice (QString.str "default") = Except.ok c1 ∧
      (logout Sample.managerDefault c1).user = QVariant.user Sample.alice ∧
      user Sample.managerDefault (logout Sample.managerDefault c1) = Except.ok Sample.alice :=
  ⟨_, rfl, rfl, rfl⟩

/-- C13 at its failing input: realm "b" is registered and the session holds alice; the realm's
own `restoreUser` returns alice, but `Authentication::restoreUser` given the name "b" tests
`realmPtr` without ever assigning it. -/
theorem restoreUser_named_realm_unassigned :
    (Sample.managerAB.realms.value (QString.str "b")).map
        (fun r => r.restoreUser (freshRequest (some Sample.sessionB)) User.ctor)
      = some Sample.alice ∧
    restoreUser Sample.managerAB (freshRequest (some Sample.sessionB)) User.ctor
        (QString.str "b") = Except.error Fault.uninitialisedRealmPtr :=
  ⟨rfl, rfl⟩

/-- C14: when the Session plugin is absent or not valid, `userIsRestorable` returns a null User,
`findRealmForPersistedUser` returns none, `user(req)` on an empty slot returns a null User, and
`setAuthenticated` changes the request slot only: the session and the call log stay as they
were. -/
theorem no_session_degrades (d : AuthenticationPrivate) (c : Cutelyst)
    (hno : c.session = none ∨ ∃ session, c.session = some session ∧ session.isValid = false) :
    (∀ r : Realm, r.userIsRestorable c = User.ctor) ∧
    findRealmForPersistedUser d c = none ∧
    (c.user.isNull = true → user d c = Except.ok User.ctor) ∧
    (∀ (u : User) (realmName : QString),
      setAuthenticated d c u realmName
        = Except.ok (c.setPluginProperty_user (QVariant.user u)) ∧
      (c.setPluginProperty_user (QVariant.user u)).session = c.session) := by
  have hvac : ∀ session, c.session = some session → session.isValid = true →
      ((session.value "Authentication::user").value_User).isNull = true := by
    intro session hs hv
    rcases hno with h | ⟨s, h1, h2⟩
    · rw [h] at hs; cases hs
    · rw [h1] at hs
      cases hs
      rw [h2] at hv
      cases hv
  have hfind := findRealmForPersistedUser_none_of_not_restorable d c hvac
  refine ⟨?_, hfind, ?_, ?_⟩
  · intro r
    rcases hno with h | ⟨s, h1, h2⟩
    · simp [Realm.userIsRestorable, h]
    · simp [Realm.userIsRestorable, h1, h2]
  · intro hslot
    simp [Authentication.user, hslot, restoreUser, QString.isNull, hfind]
  · intro u realmName
    refine ⟨?_, rfl⟩
    unfold setAuthenticated persistUser
    rw [userExists_of_slot d _ u rfl]
    cases hu : u.isNull with
    | true => rfl
    | false =>
      simp only [Bool.not_false]
      rcases hno with h | ⟨s, h1, h2⟩
      · have hs : (c.setPluginProperty_user (QVariant.user u)).session = none := h
        cases hr : d.realm realmName with
        | none => simp [hs]
        | some r => simp [hs, Realm.persistUser]
      · have hs : (c.setPluginProperty_user (QVariant.user u)).session = some s := h1
        cases hr : d.realm realmName with
        | none => simp [hs, h2]
        | some r => simp [hs, h2, Realm.persistUser]

/-- Without a Session plugin: nothing is restorable and `setAuthenticated` only fills the
slot. -/
theorem no_session_degrades_witness :
    findRealmForPersistedUser Sample.managerAB (freshRequest none) = none ∧
    user Sample.managerAB (freshRequest none) = Except.ok User.ctor ∧
    setAuthenticated Sample.managerAB (freshRequest none) Sample.alice (QString.str "a")
      = Except.ok ((freshRequest none).setPluginProperty_user (QVariant.user Sample.alice)) :=
  ⟨(no_session_degrades Sample.managerAB (freshRequest none) (Or.inl rfl)).2.1,
   (no_session_degrades Sample.managerAB (freshRequest none) (Or.inl rfl)).2.2.1 rfl,
   ((no_session_degrades Sample.managerAB (freshRequest none) (Or.inl rfl)).2.2.2
     Sample.alice (QString.str "a")).1⟩

/-- C15: a default-constructed User is null, and every User constructed with a non-empty id is
not null and has `id()` equal to the given id. -/
theorem user_null_object_law :
    User.ctor.isNull = true ∧
    ∀ id : QString, id.isEmpty = false →
      (User.ctorId id).isNull = false ∧ (User.ctorId id).id = id := by
  refine ⟨rfl, ?_⟩
  intro id hid
  cases id with
  | null => simp [QString.isEmpty, QString.chars] at hid
  | str s => exact ⟨rfl, rfl⟩

/-- The user constructed with the id "alice" is not null and has that id. -/
theorem user_null_object_law_witness :
    (User.ctorId (QString.str "alice")).isNull = false ∧
    (User.ctorId (QString.str "alice")).id = QString.str "alice" :=
  user_null_object_law.2 (QString.str "alice") (by decide)

end Authentication

namespace Authentication

/-- C16: `userIsRestorable` is a read-only, idempotent probe. The call leaves the context
(request slot, session, call log) as it was; a second call right after it returns the same
User; the User returned is the one stored under "Authentication::user" when the session is
present and valid, and a null User otherwise; and the result depends on the session alone, so
it is the same for every realm and after anything that leaves the session as it was. -/
theorem userIsRestorable_probe (r : Realm) (c : Cutelyst) :
    (r.userIsRestorable_run c).2 = c ∧
    (r.userIsRestorable_run (r.userIsRestorable_run c).2).1 = (r.userIsRestorable_run c).1 ∧
    (r.userIsRestorable_run (r.userIsRestorable_run c).2).2 = c ∧
    (∀ session, c.session = some session → session.isValid = true →
      (r.userIsRestorable_run c).1 = (session.value "Authentication::user").value_User) ∧
    ((c.session = none ∨ ∃ session, c.session = some session ∧ session.isValid = false) →
      (r.userIsRestorable_run c).1 = User.ctor ∧ (r.userIsRestorable_run c).1.isNull = true) ∧
    (∀ (r2 : Realm) (c2 : Cutelyst), c2.session = c.session →
      (r2.userIsRestorable_run c2).1 = (r.userIsRestorable_run c).1) := by
  refine ⟨rfl, rfl, rfl, ?_, ?_, ?_⟩
  · intro session hs hv
    simp [Realm.userIsRestorable_run, Realm.userIsRestorable, hs, hv]
  · intro hno
    rcases hno with h | ⟨s, h1, h2⟩
    · simp [Realm.userIsRestorable_run, Realm.userIsRestorable, h, User.ctor, User.isNull,
        QString.isNull]
    · simp [Realm.userIsRestorable_run, Realm.userIsRestorable, h1, h2, User.ctor, User.isNull,
        QString.isNull]
  · intro r2 c2 h
    simp [Realm.userIsRestorable_run, Realm.userIsRestorable, h]

/-- The probe on a fresh request over the session that holds alice: it returns alice. -/
theorem userIsRestorable_probe_witness :
    (Sample.realm.userIsRestorable_run (freshRequest (some Sample.sessionB))).1 = Sample.alice :=
  (userIsRestorable_probe Sample.realm (freshRequest (some Sample.sessionB))).2.2.2.1
    Sample.sessionB rfl rfl

/-- The caching property as stated fails: on a fresh request whose session holds alice under
realm "b", `user(req)` returns alice, and the request slot is still unset after the call. -/
theorem user_restored_not_cached_counterexample :
    restoreUser Sample.managerAB (freshRequest (some Sample.sessionB)) User.ctor QString.null
      = Except.ok Sample.alice ∧
    ∃ c1, user_run Sample.managerAB (freshRequest (some Sample.sessionB))
        = Except.ok (Sample.alice, c1) ∧
      c1.user = QVariant.invalid ∧ c1.user ≠ QVariant.user Sample.alice :=
  ⟨rfl, _, rfl, rfl, by decide⟩

/-- C17, amended: when `user(req)` is called on a request whose slot is empty and `restoreUser`
with no realm name yields a non-null User `u`, the call returns `u` and leaves the context as it
was, the slot still empty; `u` is the request's current user in that a later `user(req)` on that
context restores and returns `u` again and `userExists` is true. -/
theorem user_restored_not_cached (d : AuthenticationPrivate) (c : Cutelyst) (u : User)
    (hslot : c.user.isNull = true)
    (hres : restoreUser d c User.ctor QString.null = Except.ok u)
    (hu : u.isNull = false) :
    ∃ c1, user_run d c = Except.ok (u, c1) ∧ c1 = c ∧ c1.user.isNull = true ∧
      user d c1 = Except.ok u ∧ userExists d c1 = Except.ok true := by
  have huser : user d c = Except.ok u := by
    simp [Authentication.user, hslot, hres]
  refine ⟨c, ?_, rfl, hslot, huser, ?_⟩
  · simp [user_run, huser]
  · simp [userExists, huser, hu]

/-- Alice is restored on a fresh request from the session that names realm "b". -/
theorem user_restored_not_cached_witness :
    ∃ c1, user_run Sample.managerAB (freshRequest (some Sample.sessionB))
        = Except.ok (Sample.alice, c1) ∧ c1 = freshRequest (some Sample.sessionB) ∧
      c1.user.isNull = true ∧
      user Sample.managerAB c1 = Except.ok Sample.alice ∧
      userExists Sample.managerAB c1 = Except.ok true :=
  user_restored_not_cached Sample.managerAB (freshRequest (some Sample.sessionB)) Sample.alice
    rfl rfl rfl

/-- C18: when a user is already loaded in the request slot, `userInRealm(req, realmName)`
returns false for every realm name; the loaded user is not compared with the name. -/
theorem userInRealm_loaded (d : AuthenticationPrivate) (c : Cutelyst) (u : User)
    (realmName : QString) (hslot : c.user = QVariant.user u) :
    userInRealm d c realmName = Except.ok false := by
  simp [userInRealm, hslot, QVariant.isNull]

/-- Alice has just been authenticated under realm "default"; asked for that very realm,
`userInRealm` returns false. -/
theorem userInRealm_loaded_witness :
    ∃ c1, (authenticate Sample.managerDefault (freshRequest (some Sample.emptySession))
        Sample.goodCredentials QString.null).map Prod.snd = Except.ok c1 ∧
      userInRealm Sample.managerDefault c1 (QString.str "default") = Except.ok false :=
  ⟨_, rfl, userInRealm_loaded Sample.managerDefault _ Sample.alice (QString.str "default") rfl⟩

/-- C19: when the valid session holds under "Authentication::userRealm" a non-null value that
names no registered realm, or a realm whose `userIsRestorable` is null,
`findRealmForPersistedUser` returns none whatever the probe of `realmsOrder` would find; and
after `setAuthenticated(user, name)` with a non-null user and a name under which no realm is
registered, `user(req)` on a fresh request sharing the session returns a null User. -/
theorem findRealmForPersistedUser_stale_hint (d : AuthenticationPrivate) (c : Cutelyst)
    (session : Session)
    (hs : c.session = some session) (hv : session.isValid = true)
    (hk : (session.value "Authentication::userRealm").isNull = false)
    (hbad : ∀ r, d.realms.value (session.value "Authentication::userRealm").toString = some r →
      (r.userIsRestorable c).isNull = true) :
    findRealmForPersistedUser d c = none ∧
    (∀ (c0 : Cutelyst) (session0 : Session) (u : User) (n : String),
      c0.session = some session0 → session0.isValid = true → u.isNull = false →
      d.realms.value (QString.str n) = none →
      ∃ c1, setAuthenticated d c0 u (QString.str n) = Except.ok c1 ∧
        c1.session = some (session0.setValue "Authentication::userRealm"
          (QVariant.string (QString.str n))) ∧
        user d (freshRequest c1.session) = Except.ok User.ctor) := by
  constructor
  · unfold findRealmForPersistedUser
    simp only [hs, hv, hk, Bool.not_false, Bool.and_self, if_true]
    cases hr : d.realms.value (session.value "Authentication::userRealm").toString with
    | none => rfl
    | some r => simp [hbad r hr]
  · intro c0 session0 u n hs0 hv0 hu hn
    have hv2 : session0.valid = true := hv0
    have hex : userExists d (c0.setPluginProperty_user (QVariant.user u)) = Except.ok true := by
      rw [userExists_of_slot d _ u rfl, hu]
      rfl
    have hrealm : d.realm (QString.str n) = none := by
      simp [AuthenticationPrivate.realm, QString.isNull, hn]
    have hs2 : (c0.setPluginProperty_user (QVariant.user u)).session = some session0 := hs0
    have hp : setAuthenticated d c0 u (QString.str n) = Except.ok
        { c0.setPluginProperty_user (QVariant.user u) with
          session := some (session0.setValue "Authentication::userRealm"
            (QVariant.string (QString.str n))) } := by
      simp [setAuthenticated, persistUser, hex, hs2, hv0, hrealm]
    refine ⟨_, hp, rfl, ?_⟩
    simp [Authentication.user, freshRequest, QVariant.isNull, restoreUser, QString.isNull,
      findRealmForPersistedUser, Session.isValid, Session.setValue, Session.value, hv2,
      QVariant.toString, hn]

/-- Realms "a" and "b" are registered and the session holds alice, but names realm "c": the
probe of `realmsOrder` would find "a", yet no realm is returned. -/
theorem findRealmForPersistedUser_stale_hint_witness :
    (probeRealms Sample.managerAB
        (freshRequest (some (Sample.sessionB.setValue "Authentication::userRealm"
          (QVariant.string (QString.str "c"))))) Sample.managerAB.realmsOrder).map Realm.m_name
      = some (QString.str "a") ∧
    findRealmForPersistedUser Sample.managerAB
        (freshRequest (some (Sample.sessionB.setValue "Authentication::userRealm"
          (QVariant.string (QString.str "c"))))) = none :=
  ⟨rfl,
   (findRealmForPersistedUser_stale_hint Sample.managerAB
     (freshRequest (some (Sample.sessionB.setValue "Authentication::userRealm"
       (QVariant.string (QString.str "c")))))
     (Sample.sessionB.setValue "Authentication::userRealm" (QVariant.string (QString.str "c")))
     rfl rfl rfl
     (by
       intro r hr
       have hnone : Sample.managerAB.realms.value (QString.str "c") = none := rfl
       have hr2 : Sample.managerAB.realms.value (QString.str "c") = some r := hr
       rw [hnone] at hr2
       cases hr2)).1⟩

end Authentication
